import Mathlib

/-!
Verification of the curation-and-publishing pipeline of the ai-tech-blog
repository.  Each Python function relevant to the frozen claims is shallowly
embedded as an executable Lean definition; machine-level effects (feed
retrieval, the filesystem, the generative backend, the translation backend)
are passed in as explicit parameters, exactly at the points where the Python
code performs an external call.
-/

namespace AiTechBlog

/-! ## String utilities

Python's `needle in haystack` substring test, embedded on the character
lists underlying Lean strings. -/

/-- Boolean substring test on character lists: does `needle` occur as a
contiguous run inside the list? (Python `needle in haystack`.) -/
def isInfixB (needle : List Char) : List Char → Bool
  | [] => needle.isEmpty
  | c :: rest => needle.isPrefixOf (c :: rest) || isInfixB needle rest

/-- Python `needle in haystack` on strings. -/
def containsSub (haystack needle : String) : Bool :=
  isInfixB needle.data haystack.data

/-- Python `s.lower()`, embedded character-wise (kernel-reducible, unlike
`String.toLower` which goes through byte positions). -/
def strLower (s : String) : String :=
  String.mk (s.data.map Char.toLower)

/-! ## smart_collector.py — keyword tables

Transcribed verbatim from `src/automation/collector/smart_collector.py`. -/

/-- `AI_KEYWORDS["high"]` from smart_collector.py. -/
def AI_KEYWORDS_high : List String :=
  ["ChatGPT", "Claude", "Gemini", "Midjourney", "Notion AI",
   "automation", "workflow", "productivity", "efficiency",
   "save time", "template", "tutorial", "how to", "guide",
   "feature", "update", "new release", "integration", "API"]

/-- `AI_KEYWORDS["medium"]` from smart_collector.py. -/
def AI_KEYWORDS_medium : List String :=
  ["content creation", "writing", "marketing", "design",
   "customer service", "data analysis", "coding", "SEO",
   "AI tool", "AI assistant", "chatbot", "generator"]

/-- `AI_KEYWORDS["low"]` from smart_collector.py. -/
def AI_KEYWORDS_low : List String :=
  ["AI", "ML", "automation", "tool", "tips"]

/-- `EXCLUDE_KEYWORDS` from smart_collector.py. -/
def EXCLUDE_KEYWORDS : List String :=
  ["arXiv", "paper", "research", "algorithm", "model architecture",
   "neural network", "training", "benchmark", "dataset",
   "quantum", "protein", "molecular", "physics", "biology"]

/-! ## smart_collector.py — scoring -/

/-- `AISmartCollector._calculate_ai_relevance(title, summary)`.

The Python code lower-cases `f"{title} {summary}"`, returns `0.0` as soon
as any exclusion keyword occurs as a substring, otherwise adds `15` per
present high keyword, `8` per present medium keyword and `3` per present
low keyword (a plain `in` presence test per keyword), and finally clamps
with `min(score, 100.0)`.  All values the Python float can take here are
naturals, so the score is embedded as a `Nat`. -/
def calculate_ai_relevance (title summary : String) : Nat :=
  let text := strLower (title ++ " " ++ summary)
  if EXCLUDE_KEYWORDS.any (fun kw => containsSub text (strLower kw)) then 0
  else
    let s1 := AI_KEYWORDS_high.foldl
      (fun s kw => if containsSub text (strLower kw) then s + 15 else s) 0
    let s2 := AI_KEYWORDS_medium.foldl
      (fun s kw => if containsSub text (strLower kw) then s + 8 else s) s1
    let s3 := AI_KEYWORDS_low.foldl
      (fun s kw => if containsSub text (strLower kw) then s + 3 else s) s2
    min s3 100

/-- The exclusion test of `_calculate_ai_relevance`: some exclusion keyword
occurs (case-insensitively) in the lower-cased `title ++ " " ++ summary`. -/
def hasExcludedTerm (title summary : String) : Bool :=
  let text := strLower (title ++ " " ++ summary)
  EXCLUDE_KEYWORDS.any (fun kw => containsSub text (strLower kw))

/-- `AISmartCollector._calculate_quality_score(article, source_config)`.

`article` is accessed only through `article.get("title", "")` and
`article.get("summary", "")` plus `article.get("published", "")`, so the
three strings are taken as direct arguments; `source_config.get
("quality_score", 5)` is the `source_quality` argument.  The Python code
only clamps from above (`min(score, 100.0)`), so the result is an `Int`
and may be negative. -/
def calculate_quality_score (title summary published : String)
    (source_quality : Nat) : Int :=
  let score : Int := (source_quality : Int) * 5
  let score :=
    if 30 ≤ title.length ∧ title.length ≤ 100 then score + 10
    else if title.length < 20 then score - 5
    else score
  let score := if 200 ≤ summary.length then score + 10 else score
  let score :=
    if published ≠ "" ∧
        (containsSub published "2026" = true ∨ containsSub published "2025" = true)
      then score + 15 else score
  min score 100

/-! ## smart_collector.py — collection -/

/-- One parsed feed entry as `feedparser` hands it to
`AISmartCollector.collect_from_rss`; absent keys are `none`
(`entry.get(k, default)` in Python). -/
structure SmartEntry where
  link : Option String
  title : Option String
  summary : Option String
  published : Option String
deriving DecidableEq, Repr

/-- Per-source configuration relevant inside `collect_from_rss`
(`config["name"]` and `config.get("quality_score", 5)`). -/
structure SmartSourceConfig where
  name : String
  quality_score : Nat
deriving DecidableEq, Repr

/-- The `Article` dataclass of smart_collector.py.  `final_score` is a
Python float `relevance * 0.6 + quality * 0.4`; it is embedded over `ℚ`
(the coefficients 3/5 and 2/5 are exact there, unlike in binary floating
point; no claim depends on `final_score`). -/
structure SmartArticle where
  id : String
  title : String
  url : String
  source : String
  published : String
  summary : String
  content : String
  ai_relevance_score : Nat
  quality_score : Int
  final_score : ℚ
deriving DecidableEq, Repr

/-- The entry loop of `AISmartCollector.collect_from_rss`: `seen` is
`self.seen_ids`, `genId` is `self._generate_id` (an md5 digest — kept
abstract), and the returned list is `articles` in entry order. -/
def smart_collect_go (cfg : SmartSourceConfig) (genId : String → String → String) :
    List SmartEntry → List String → List SmartArticle
  | [], _ => []
  | e :: rest, seen =>
    let article_id := genId (e.link.getD "") (e.title.getD "")
    if article_id ∈ seen then smart_collect_go cfg genId rest seen
    else
      let title := e.title.getD ""
      let summary := e.summary.getD ""
      let ai_score := calculate_ai_relevance title summary
      if ai_score < 10 then smart_collect_go cfg genId rest seen
      else
        let quality := calculate_quality_score title summary "" cfg.quality_score
        { id := article_id
          title := title
          url := e.link.getD ""
          source := cfg.name
          published := e.published.getD ""
          summary := summary.take 500
          content := summary
          ai_relevance_score := ai_score
          quality_score := quality
          final_score := (ai_score : ℚ) * (3 / 5) + (quality : ℚ) * (2 / 5) } ::
        smart_collect_go cfg genId rest (article_id :: seen)

/-- `AISmartCollector.collect_from_rss` after the source lookup and the
feed fetch: the feed's entries are truncated to
`self.max_articles` (`feed.entries[:self.max_articles]`) and then folded
by `smart_collect_go`. -/
def smart_collect_from_rss (cfg : SmartSourceConfig)
    (genId : String → String → String) (max_articles : Nat)
    (seen : List String) (entries : List SmartEntry) : List SmartArticle :=
  smart_collect_go cfg genId (entries.take max_articles) seen

/-! ## Claim C2's own scoring formula

The claim (and the spec sentence it quotes) says multiple occurrences of
the same keyword each add that keyword's weight.  The following definition
follows the claim's words — weight times the number of occurrences of each
tier keyword — so it can be compared against `calculate_ai_relevance`,
which was translated from the source. -/

/-- Number of (possibly overlapping) occurrences of `needle` in a
character list: the number of positions at which `needle` starts. -/
def countOcc (needle : List Char) : List Char → Nat
  | [] => if needle.isEmpty then 1 else 0
  | c :: rest => (if needle.isPrefixOf (c :: rest) then 1 else 0) + countOcc needle rest

/-- The relevance formula exactly as claim C2 states it: the sum over
keyword tiers of (weight of tier) × (number of occurrences of each tier
keyword in the lower-cased concatenation of title and summary), clamped
to at most 100. -/
def relevance_occurrences_spec (title summary : String) : Nat :=
  let text := (strLower (title ++ " " ++ summary)).data
  min (15 * (AI_KEYWORDS_high.map (fun kw => countOcc (strLower kw).data text)).sum
     + 8 * (AI_KEYWORDS_medium.map (fun kw => countOcc (strLower kw).data text)).sum
     + 3 * (AI_KEYWORDS_low.map (fun kw => countOcc (strLower kw).data text)).sum) 100

/-- Presence (not occurrence-count) of keyword `kw` in `text`:
`kw.lower() in text`, the test `_calculate_ai_relevance` actually runs. -/
def presentIn (text kw : String) : Bool :=
  containsSub text (strLower kw)

/-- Number of keywords of a tier that occur at least once in `text`. -/
def tier_hits (text : String) (tier : List String) : Nat :=
  tier.countP (presentIn text)

/-! ## rss_collector.py — collection against the deduplication ledger -/

/-- One parsed feed entry as `feedparser` hands it to
`RSSCollector.collect_from_source`; `contentValue` is
`entry.get('content', [{}])[0].get('value', '')` (absent → `none`). -/
structure RssEntry where
  link : Option String
  title : Option String
  summary : Option String
  contentValue : Option String
  published : Option String
  updated : Option String
deriving DecidableEq, Repr

/-- The fields of an `RSS_SOURCES` entry read inside
`collect_from_source` (`source['name']`, `source['category']`,
`source.get('priority', 1)`). -/
structure RssSource where
  name : String
  category : String
  priority : Nat
deriving DecidableEq, Repr

/-- The `Article` dataclass of rss_collector.py. -/
structure RssArticle where
  id : String
  title : String
  url : String
  source : String
  category : String
  published : String
  summary : String
  content : String
  collected_at : String
  priority : Nat
deriving DecidableEq, Repr

/-- The deduplication ledger: `self.seen_ids` (the in-memory set) and the
durable append-only `dedup.db` file, as the list of lines appended so far.
`RSSCollector._save_seen_id` appends to the file and adds to the set. -/
structure LedgerState where
  seen : List String
  log : List String
deriving DecidableEq, Repr

/-- Body-text selection in `collect_from_source`: content value, else
summary, else the fetched page text (`_fetch_full_content`, an external
call passed in as `fetch`). -/
def rss_entry_content (fetch : String → String) (e : RssEntry) : String :=
  let c := e.contentValue.getD ""
  if c ≠ "" then c
  else
    let s := e.summary.getD ""
    if s ≠ "" then s
    else fetch (e.link.getD "")

/-- The entry loop of `RSSCollector.collect_from_source`: skip entries
whose identity is already seen, skip entries whose body text is shorter
than 200 characters, and mark every kept entry seen (set and durable log)
immediately, before moving to the next entry.  `genId` is
`self._generate_id` (an md5 digest — kept abstract) and `now` is
`datetime.now().isoformat()`. -/
def rss_collect_go (genId : String → String → String) (fetch : String → String)
    (src : RssSource) (now : String) :
    List RssEntry → LedgerState → List RssArticle × LedgerState
  | [], st => ([], st)
  | e :: rest, st =>
    let article_id := genId (e.link.getD "") (e.title.getD "")
    if article_id ∈ st.seen then rss_collect_go genId fetch src now rest st
    else
      let content := rss_entry_content fetch e
      if content.length < 200 then rss_collect_go genId fetch src now rest st
      else
        let a : RssArticle :=
          { id := article_id
            title := e.title.getD "Untitled"
            url := e.link.getD ""
            source := src.name
            category := src.category
            published := e.published.getD (e.updated.getD "")
            summary := (e.summary.getD "").take 500
            content := content.take 10000
            collected_at := now
            priority := src.priority }
        let st' : LedgerState := ⟨article_id :: st.seen, st.log ++ [article_id]⟩
        let r := rss_collect_go genId fetch src now rest st'
        (a :: r.1, r.2)

/-- `RSSCollector.collect_from_source` after the feed fetch: at most the
first 10 entries are considered (`feed.entries[:10]`). -/
def rss_collect_from_source (genId : String → String → String)
    (fetch : String → String) (src : RssSource) (now : String)
    (st : LedgerState) (entries : List RssEntry) :
    List RssArticle × LedgerState :=
  rss_collect_go genId fetch src now (entries.take 10) st

/-! ## llm_processor.py — content transformation -/

/-- The input article as `process_article` reads it: after
`to_dict()` / `__dict__` normalisation both the dict and the dataclass
shapes are accessed only through `article_dict.get(key, default)`, so an
absent key is `none`. -/
structure ArticleInput where
  title : Option String
  summary : Option String
  content : Option String
  category : Option String
  url : Option String
  source : Option String
deriving DecidableEq, Repr

/-- The `ProcessedArticle` dataclass of llm_processor.py. -/
structure ProcessedArticle where
  original_title : String
  title : String
  summary : String
  content : String
  keywords : List String
  category : String
  source_url : String
  source_name : String
deriving DecidableEq, Repr

/-- The four fields the response parsing produces; each is `none` when the
corresponding key is missing (strict JSON parse) or its pattern did not
match (fallback extraction). -/
structure LLMFields where
  title : Option String
  summary : Option String
  content : Option String
  keywords : Option (List String)
deriving DecidableEq, Repr

/-- `LLMProcessor._mock_process`: the deterministic local mode used when no
API key is configured. -/
def mock_process (a : ArticleInput) : ProcessedArticle :=
  { original_title := a.title.getD ""
    title := "[Analysis] " ++ a.title.getD ""
    summary := (a.summary.getD "").take 200
    content := (a.content.getD "").take 2000
    keywords := ["AI", "Technology"]
    category := a.category.getD "AI"
    source_url := a.url.getD ""
    source_name := a.source.getD "" }

/-- The prompt `PROCESSING_PROMPT.format(...)` hands to the backend; the
raw content is capped to 6000 characters
(`article_dict.get('content', '')[:6000]`).  The template prose is
abridged here — no claim depends on its wording — but the data flow
(which article fields reach the prompt, and the cap) is kept. -/
def processing_prompt (original_title source_name raw_content : String) : String :=
  "You are an expert AI technology analyst writing for a professional tech blog."
    ++ "\n\nTransform the following raw article content into a professional,"
    ++ " in-depth analysis article.\n\n## Raw Article:\nTitle: " ++ original_title
    ++ "\nSource: " ++ source_name ++ "\nContent:\n" ++ raw_content.take 6000
    ++ "\n\n## Output Format (JSON)"

/-- Characters after the first occurrence of `sep` (Python
`s.split(sep)[1]` up to the next cut applied by the caller). -/
def dropThroughFirst (sep : List Char) : List Char → List Char
  | [] => []
  | c :: rest =>
    if sep.isPrefixOf (c :: rest) then (c :: rest).drop sep.length
    else dropThroughFirst sep rest

/-- Characters before the first occurrence of `sep` (Python
`s.split(sep)[0]`). -/
def takeUntilFirst (sep : List Char) : List Char → List Char
  | [] => []
  | c :: rest =>
    if sep.isPrefixOf (c :: rest) then []
    else c :: takeUntilFirst sep rest

/-- String form of `dropThroughFirst`. -/
def afterFirst (sep s : String) : String :=
  String.mk (dropThroughFirst sep.data s.data)

/-- String form of `takeUntilFirst`. -/
def beforeFirst (sep s : String) : String :=
  String.mk (takeUntilFirst sep.data s.data)

/-- Python `s.strip()` (kernel-reducible, unlike `String.trim`). -/
def stripWS (s : String) : String :=
  String.mk (((s.data.dropWhile Char.isWhitespace).reverse.dropWhile
    Char.isWhitespace).reverse)

/-- The markdown-fence handling of `process_article`: if the response
contains a fenced block the text between the opening fence and the next
fence is kept (`result_text.split('```json')[1].split('```')[0]`,
resp. with a plain fence). -/
def strip_code_fence (s : String) : String :=
  if containsSub s "```json" then beforeFirst "```" (afterFirst "```json" s)
  else if containsSub s "```" then beforeFirst "```" (afterFirst "```" s)
  else s

/-- The body of `LLMProcessor.process_article` when a client is
configured.  The two external library computations are parameters:
`jsonParse` is `json.loads` (`none` = `JSONDecodeError`) and
`regexFields` is the four field-scoped `re.search` extractions of the
fallback branch (a `none` field = that pattern did not match); the
fallback's per-field defaults are applied here exactly as in the source.
`response` is the single chat-completion call's outcome; a raised call
(`.error`) is caught by the outer `except` and yields `None`. -/
def process_article_with_client (jsonParse : String → Option LLMFields)
    (regexFields : String → LLMFields) (a : ArticleInput)
    (response : Except String String) : Option ProcessedArticle :=
  match response with
  | .error _ => none
  | .ok result_text =>
    let cleaned := stripWS (strip_code_fence result_text)
    let result : LLMFields :=
      match jsonParse cleaned with
      | some r => r
      | none =>
        let rf := regexFields cleaned
        { title := some (rf.title.getD (a.title.getD ""))
          summary := some (rf.summary.getD "")
          content := some (rf.content.getD cleaned)
          keywords := some (rf.keywords.getD ["AI"]) }
    some
      { original_title := a.title.getD ""
        title := result.title.getD (a.title.getD "")
        summary := result.summary.getD ""
        content := result.content.getD ""
        keywords := result.keywords.getD []
        category := a.category.getD "AI"
        source_url := a.url.getD ""
        source_name := a.source.getD "" }

/-- `LLMProcessor.process_article`: `self.client` is `None` exactly when no
API key is configured, in which case `_mock_process` runs. -/
def process_article (client_configured : Bool)
    (jsonParse : String → Option LLMFields) (regexFields : String → LLMFields)
    (response : Except String String) (a : ArticleInput) :
    Option ProcessedArticle :=
  if client_configured then process_article_with_client jsonParse regexFields a response
  else some (mock_process a)

/-! ## translator.py — localisation -/

/-- One language's translated fields inside the dict
`Translator.translate_article` returns. -/
structure LangTrans where
  title : String
  summary : String
  content : String
deriving DecidableEq, Repr

/-- The full return value of `translate_article`: the `'zh'` and `'ja'`
entries. -/
structure ArticleTranslations where
  zh : LangTrans
  ja : LangTrans
deriving DecidableEq, Repr

/-- `Translator.translate`.  `backend` is `self.translator`: `none` when
no DeepL key is configured (mock placeholders), otherwise the external
`translate_text` call, whose raising is the `.error` case — caught, with
the original text returned unchanged. -/
def translate (backend : Option (String → String → Except String String))
    (text target_lang : String) : String :=
  match backend with
  | none =>
    if target_lang = "ZH" then "[中文翻译] " ++ text.take 100 ++ "..."
    else if target_lang = "JA" then "[日本語翻訳] " ++ text.take 100 ++ "..."
    else text
  | some tr =>
    match tr text target_lang with
    | .ok result => result
    | .error _ => text

/-- `Translator.translate_article`: six independent `translate` calls, one
per language and field. -/
def translate_article (backend : Option (String → String → Except String String))
    (title summary content : String) : ArticleTranslations :=
  { zh :=
      { title := translate backend title "ZH"
        summary := translate backend summary "ZH"
        content := translate backend content "ZH" }
    ja :=
      { title := translate backend title "JA"
        summary := translate backend summary "JA"
        content := translate backend content "JA" } }

/-! ## article_publisher.py — slug derivation and multi-locale writes -/

/-- The character class kept by `re.sub(r'[^a-z0-9\s-]', '', slug)`:
lower-case ASCII letters, digits, whitespace and hyphen. -/
def isSlugKeepChar (c : Char) : Bool :=
  (decide ('a' ≤ c) && decide (c ≤ 'z')) ||
  (decide ('0' ≤ c) && decide (c ≤ '9')) ||
  c.isWhitespace || (c == '-')

/-- `re.sub(r'\s+', '-', slug)`: every maximal whitespace run becomes one
hyphen.  The flag records whether the previous character was part of a
whitespace run already replaced. -/
def collapse_ws_go : Bool → List Char → List Char
  | _, [] => []
  | prev_ws, c :: rest =>
    if c.isWhitespace then
      if prev_ws then collapse_ws_go true rest
      else '-' :: collapse_ws_go true rest
    else c :: collapse_ws_go false rest

/-- `ArticlePublisher._generate_slug` before the final `[:50]` cap:
lower-case, keep `[a-z0-9\s-]`, collapse whitespace runs to single
hyphens, strip leading and trailing hyphens. -/
def slug_core (title : String) : List Char :=
  let s := (strLower title).data.filter isSlugKeepChar
  let s := collapse_ws_go false s
  ((s.dropWhile (· == '-')).reverse.dropWhile (· == '-')).reverse

/-- `ArticlePublisher._generate_slug(title)`: `slug_core` capped to 50
characters (`return slug[:50]` runs after `strip('-')`). -/
def generate_slug (title : String) : String :=
  String.mk ((slug_core title).take 50)

/-- Python `s.replace('"', '\\"')` as used in `_generate_frontmatter`. -/
def escape_quotes (s : String) : String :=
  String.mk (s.data.foldr (fun c acc => if c == '"' then '\\' :: '"' :: acc else c :: acc) [])

/-- `ArticlePublisher._generate_frontmatter`. -/
def generate_frontmatter (title summary : String) (keywords : List String)
    (source_url source_name : String) : String :=
  let keywords_str := String.intercalate ", " (keywords.map (fun kw => "\"" ++ kw ++ "\""))
  "---\nslug: " ++ generate_slug title
    ++ "\ntitle: \"" ++ escape_quotes title
    ++ "\"\nauthors: [ai-editor]\ntags: [" ++ keywords_str
    ++ "]\ndescription: \"" ++ (escape_quotes summary).take 160
    ++ "\"\nsource_url: " ++ source_url
    ++ "\nsource_name: " ++ source_name
    ++ "\n---\n\n"

/-- Python `audio_paths.get(lang)` on the assoc-list embedding of the
dict. -/
def lookupAssoc (m : List (String × String)) (k : String) : Option String :=
  (m.find? (fun p => p.1 == k)).map (fun p => p.2)

/-- The `<audio>` block of `publish_article`: present when
`audio_paths and audio_paths.get(lang)` is truthy. -/
def audio_section_for (audio_paths : Option (List (String × String)))
    (slug lang : String) : String :=
  match audio_paths with
  | none => ""
  | some m =>
    match lookupAssoc m lang with
    | some v =>
      if v ≠ "" then
        "\n<audio controls src=\"/audio/" ++ slug ++ "/" ++ lang ++ ".mp3\"></audio>\n"
      else ""
    | none => ""

/-- The dict `publish_article` returns. -/
structure PublishResult where
  slug : String
  date : String
  en_file : String
  translations : List (String × String)
  audio_paths : Option (List (String × String))
deriving DecidableEq, Repr

/-- The path of one locale's file:
`i18n/<lang>/docusaurus-plugin-content-blog/<date>-<slug>/index.md`. -/
def trans_path (date_str slug : String) (lt : String × LangTrans) : String :=
  "i18n/" ++ lt.1 ++ "/docusaurus-plugin-content-blog/" ++ date_str ++ "-" ++ slug ++ "/index.md"

/-- The source-language file path: `blog/<date>-<slug>/index.md`. -/
def en_path (date_str slug : String) : String :=
  "blog/" ++ date_str ++ "-" ++ slug ++ "/index.md"

/-- The translation loop of `publish_article`.  `fails p = true` models
`open(p, 'w').write(...)` raising for that path; the exception propagates
(there is no `try` in the source), so the loop stops there.  Returns the
`(path, rendered content)` pairs actually written, in write order, and
`some published_translations` when the loop completed (`none` = aborted). -/
def publish_translations_go (fails : String → Bool) (date_str slug : String)
    (keywords : List String) (source_url source_name : String)
    (audio_paths : Option (List (String × String))) :
    List (String × LangTrans) → List (String × String) × Option (List (String × String))
  | [] => ([], some [])
  | (lang, lt) :: rest =>
    let trans_file := trans_path date_str slug (lang, lt)
    let trans_frontmatter :=
      generate_frontmatter lt.title lt.summary keywords source_url source_name
    let trans_audio := audio_section_for audio_paths slug lang
    let trans_content := trans_frontmatter ++ "# " ++ lt.title ++ "\n\n"
      ++ trans_audio ++ "\n" ++ lt.content ++ "\n\n<!-- truncate -->\n"
    if fails trans_file then ([], none)
    else
      match publish_translations_go fails date_str slug keywords source_url
          source_name audio_paths rest with
      | (written, none) => ((trans_file, trans_content) :: written, none)
      | (written, some pubs) =>
        ((trans_file, trans_content) :: written, some ((lang, trans_file) :: pubs))

/-- `ArticlePublisher.publish_article` with the current date passed in as
`date_str` and the filesystem write outcome as `fails`.  The
source-language file is written first; the per-locale files follow in
dict-iteration order; any raising write aborts the method (no exception
handling in the source), leaving earlier files on disk.  Returns the
written `(path, content)` pairs and the result dict when the method
returned normally. -/
def publish_article (fails : String → Bool) (date_str : String)
    (title summary content : String) (keywords : List String)
    (source_url source_name : String)
    (translations : Option (List (String × LangTrans)))
    (audio_paths : Option (List (String × String))) :
    List (String × String) × Option PublishResult :=
  let slug := generate_slug title
  let en_file := en_path date_str slug
  let frontmatter := generate_frontmatter title summary keywords source_url source_name
  let audio_section := audio_section_for audio_paths slug "en"
  let en_content := frontmatter ++ "# " ++ title ++ "\n\n" ++ audio_section
    ++ "\n" ++ content ++ "\n\n<!-- truncate -->\n"
  if fails en_file then ([], none)
  else
    match translations with
    | none =>
      ([(en_file, en_content)], some ⟨slug, date_str, en_file, [], audio_paths⟩)
    | some ts =>
      match publish_translations_go fails date_str slug keywords source_url
          source_name audio_paths ts with
      | (written, none) => ((en_file, en_content) :: written, none)
      | (written, some pubs) =>
        ((en_file, en_content) :: written, some ⟨slug, date_str, en_file, pubs, audio_paths⟩)

/-- The full intended file set of one `publish_article` call: the
source-language file followed by one file per locale, in write order. -/
def intended_paths (date_str slug : String)
    (translations : List (String × LangTrans)) : List String :=
  en_path date_str slug :: translations.map (trans_path date_str slug)

/-- Adjacent-character relation used to state "whitespace runs collapse to
single hyphens": no two neighbouring hyphens. -/
def noAdjHyphens (a b : Char) : Prop := ¬(a = '-' ∧ b = '-')

/-- Output character class of `_generate_slug` as the spec states it:
`[a-z0-9-]`. -/
def isSlugOutChar (c : Char) : Bool :=
  (decide ('a' ≤ c) && decide (c ≤ 'z')) ||
  (decide ('0' ≤ c) && decide (c ≤ '9')) || (c == '-')

/-! ## main.py — the pipeline orchestrator -/

/-- The `results` dict of `AutomationPipeline.run`. -/
structure RunResults (ρ : Type) where
  collected : Nat
  processed : Nat
  translated : Nat
  published : Nat
  articles : List ρ
deriving DecidableEq, Repr

/-- `AutomationPipeline.run`, with the four stage objects passed in as
functions: `collect_all` is the collector's batch, `process` is
`LLMProcessor.process_article` (a `None` result drops the item),
`translate_stage` and `publish_stage` are the translator and publisher
calls of the final loop (both total here: a raising publisher would mean
the run never returns a `results` dict at all).  Note Python's
`if max_articles:` — a cap of `0` is falsy and does not truncate. -/
def pipeline_run {α π τ ρ : Type} (collect_all : List α) (process : α → Option π)
    (translate_stage : π → τ) (publish_stage : π → τ → ρ)
    (max_articles : Option Nat) : RunResults ρ :=
  if collect_all.isEmpty then ⟨0, 0, 0, 0, []⟩
  else
    let collected := collect_all.length
    let articles :=
      match max_articles with
      | some k => if k ≠ 0 then collect_all.take k else collect_all
      | none => collect_all
    let processed_list := articles.filterMap process
    let outcomes := processed_list.map (fun p => publish_stage p (translate_stage p))
    ⟨collected, processed_list.length, outcomes.length, outcomes.length, outcomes⟩

/-! ## Concrete fixtures

Closed inputs used to instantiate the theorems below on concrete data. -/

/-- A concrete stand-in for `_generate_id` (the md5 digest is abstract in
this development; any function of (url, title) works). -/
def testGenId (url title : String) : String := url ++ "|" ++ title

/-- A concrete stand-in for `_fetch_full_content`. -/
def testFetch (_ : String) : String := ""

/-- Placeholder used with `List.getD`. -/
def dummySmartArticle : SmartArticle :=
  ⟨"", "", "", "", "", "", "", 0, 0, 0⟩

/-- A concrete smart-collector source configuration. -/
def testSmartCfg : SmartSourceConfig := ⟨"Test Source", 10⟩

/-- One fresh feed entry whose text clears the relevance cutoff. -/
def testSmartEntries : List SmartEntry :=
  [⟨some "https://e.com/a", some "ChatGPT tutorial", some "", some ""⟩]

/-- The single article the smart collector produces from
`testSmartEntries` with an empty seen set. -/
def testSmartArticle : SmartArticle :=
  (smart_collect_from_rss testSmartCfg testGenId 20 [] testSmartEntries).getD 0
    dummySmartArticle

/-- A concrete RSS source. -/
def testRssSource : RssSource := ⟨"Test Feed", "AI", 1⟩

/-- A ledger already containing the identity of the first test entry. -/
def testLedger : LedgerState := ⟨["https://e.com/x|Seen Title"], ["https://e.com/x|Seen Title"]⟩

/-- A 200-character body, the minimum the length filter accepts. -/
def longBody : String := String.mk (List.replicate 200 'x')

/-- Two entries: the first one's identity is pre-seeded in `testLedger`,
the second is fresh and long enough to keep. -/
def testRssEntries : List RssEntry :=
  [⟨some "https://e.com/x", some "Seen Title", some "s", some longBody, some "", some ""⟩,
   ⟨some "https://e.com/y", some "Fresh Title", some "s", some longBody, some "", some ""⟩]

/-- Placeholder used with `List.getD`. -/
def dummyRssArticle : RssArticle :=
  ⟨"", "", "", "", "", "", "", "", "", 0⟩

/-- The single article `collect_from_source` keeps from `testRssEntries`
starting from `testLedger`. -/
def testRssArticle : RssArticle :=
  (rss_collect_from_source testGenId testFetch testRssSource "2026-01-01T00:00:00"
    testLedger testRssEntries).1.getD 0 dummyRssArticle

/-- A title whose normalised slug is 51 characters long, so the `[:50]`
cap cuts exactly at the hyphen the whitespace produced. -/
def slugTrailingTitle : String :=
  String.mk (List.replicate 49 'a' ++ [' ', 'b'])

/-- A write model in which exactly the source-language file write raises. -/
def c8FailEn : String → Bool :=
  fun p => p == en_path "2026-01-01" "test-title"

/-- A write model in which every write succeeds. -/
def c8NoFail : String → Bool := fun _ => false

/-- One pending translation for the publish theorems. -/
def c8Translations : List (String × LangTrans) :=
  [("zh", ⟨"zh title", "zh summary", "zh content"⟩)]

/-- A translation backend that raises for Japanese and succeeds for
Chinese. -/
def testBackend (text target_lang : String) : Except String String :=
  if target_lang == "JA" then Except.error "timeout"
  else Except.ok ("[zh] " ++ text)

/-- Pipeline fixtures over `Nat` items. -/
def c10Collect : List Nat := [7]

/-- A processor that accepts every item. -/
def c10Process (n : Nat) : Option Nat := some n

/-- A trivial translation stage. -/
def c10Translate (n : Nat) : Nat := n

/-- A trivial publish stage. -/
def c10Publish (p t : Nat) : Nat := p + t

/-! ## Helper lemmas -/

/-- A fold that adds a fixed weight for every element satisfying `p` adds
the weight times the number of such elements. -/
theorem foldl_add_if_count (w : Nat) (p : String → Bool) :
    ∀ (l : List String) (a : Nat),
      l.foldl (fun s kw => if p kw then s + w else s) a = a + w * l.countP p := by
  intro l
  induction l with
  | nil => intro a; simp
  | cons kw l ih =>
    intro a
    by_cases h : p kw = true
    · simp only [List.foldl_cons, h, if_true, ih, List.countP_cons, h]
      ring
    · have h' : p kw = false := by simpa using h
      simp only [List.foldl_cons, h', Bool.false_eq_true, if_false, ih,
        List.countP_cons, h']
      ring

/-- Every article kept by the smart-collector loop cleared the relevance
cutoff of 10. -/
theorem mem_smart_collect_go_score (cfg : SmartSourceConfig)
    (genId : String → String → String) :
    ∀ (entries : List SmartEntry) (seen : List String) (a : SmartArticle),
      a ∈ smart_collect_go cfg genId entries seen → 10 ≤ a.ai_relevance_score := by
  intro entries
  induction entries with
  | nil => intro seen a ha; simp [smart_collect_go] at ha
  | cons e rest ih =>
    intro seen a ha
    simp only [smart_collect_go] at ha
    split at ha
    · exact ih _ _ ha
    · split at ha
      · exact ih _ _ ha
      · rename_i hscore
        rcases List.mem_cons.mp ha with h1 | h2
        · subst h1; simpa using Nat.le_of_not_lt hscore
        · exact ih _ _ h2

/-! ## C1 — exclusion supremacy -/

/-- C1: any title/summary pair whose lower-cased concatenation contains an
exclusion term gets relevance score exactly 0 from
`_calculate_ai_relevance`, no matter which scored keywords also occur; and
no article whose relevance score is 0 is ever in the batch
`collect_from_rss` returns (every kept article cleared the cutoff of 10). -/
theorem relevance_exclusion_supremacy (title summary : String)
    (h : hasExcludedTerm title summary = true)
    (cfg : SmartSourceConfig) (genId : String → String → String)
    (max_articles : Nat) (seen : List String) (entries : List SmartEntry)
    (a : SmartArticle)
    (ha : a ∈ smart_collect_from_rss cfg genId max_articles seen entries) :
    calculate_ai_relevance title summary = 0 ∧ a.ai_relevance_score ≠ 0 := by
  constructor
  · have h' : (EXCLUDE_KEYWORDS.any
        (fun kw => containsSub (strLower (title ++ " " ++ summary)) (strLower kw))) = true := by
      simpa [hasExcludedTerm] using h
    simp [calculate_ai_relevance, h']
  · have h10 := mem_smart_collect_go_score cfg genId _ _ a ha
    omega

set_option maxRecDepth 2000 in
/-- C1 at concrete inputs: "quantum computing" contains the exclusion term
"quantum" and scores 0; the article collected from `testSmartEntries` has a
non-zero relevance score. -/
theorem relevance_exclusion_supremacy_witness :
    calculate_ai_relevance "quantum computing" "" = 0 ∧
      testSmartArticle.ai_relevance_score ≠ 0 :=
  relevance_exclusion_supremacy "quantum computing" "" (by decide)
    testSmartCfg testGenId 20 [] testSmartEntries testSmartArticle
    (by
      have h : smart_collect_from_rss testSmartCfg testGenId 20 [] testSmartEntries
          = [testSmartArticle] := rfl
      rw [h]
      exact List.mem_singleton_self _)

/-! ## C2 — per-keyword presence, not per-occurrence counting -/

/-- C2 counterexample: on the title "ChatGPT ChatGPT" the code scores the
keyword "ChatGPT" once (15), while the claim's occurrence-counting formula
(`relevance_occurrences_spec`, written from the claim's own words) gives
2 × 15 = 30.  The two disagree, so the claim is false as stated. -/
theorem relevance_counts_presence_not_occurrences :
    calculate_ai_relevance "ChatGPT ChatGPT" "" = 15 ∧
    relevance_occurrences_spec "ChatGPT ChatGPT" "" = 30 := by
  constructor
  · decide
  · decide

/-- C2 amended: when no exclusion term occurs, the relevance score is
15 × (number of high-tier keywords present) + 8 × (medium present) +
3 × (low present), clamped to at most 100 — each keyword contributes its
weight at most once, however often it occurs. -/
theorem relevance_presence_formula (title summary : String)
    (h : hasExcludedTerm title summary = false) :
    calculate_ai_relevance title summary =
      min (15 * tier_hits (strLower (title ++ " " ++ summary)) AI_KEYWORDS_high
         + 8 * tier_hits (strLower (title ++ " " ++ summary)) AI_KEYWORDS_medium
         + 3 * tier_hits (strLower (title ++ " " ++ summary)) AI_KEYWORDS_low) 100 := by
  have h' : (EXCLUDE_KEYWORDS.any
      (fun kw => containsSub (strLower (title ++ " " ++ summary)) (strLower kw))) = false := by
    simpa [hasExcludedTerm] using h
  simp only [calculate_ai_relevance, h', Bool.false_eq_true, if_false,
    tier_hits, presentIn]
  rw [foldl_add_if_count, foldl_add_if_count, foldl_add_if_count]
  have hfun : presentIn (strLower (title ++ " " ++ summary)) =
      fun kw => containsSub (strLower (title ++ " " ++ summary)) (strLower kw) := rfl
  rw [hfun]
  congr 1
  ring

/-- C2 amended at a concrete input ("ChatGPT tutorial" contains no
exclusion term). -/
theorem relevance_presence_formula_witness :
    calculate_ai_relevance "ChatGPT tutorial" "" =
      min (15 * tier_hits (strLower ("ChatGPT tutorial" ++ " " ++ "")) AI_KEYWORDS_high
         + 8 * tier_hits (strLower ("ChatGPT tutorial" ++ " " ++ "")) AI_KEYWORDS_medium
         + 3 * tier_hits (strLower ("ChatGPT tutorial" ++ " " ++ "")) AI_KEYWORDS_low) 100 :=
  relevance_presence_formula "ChatGPT tutorial" "" (by decide)

/-! ## C3 — score clamping -/

/-- C3 counterexample: with source quality tier 0 and an empty title
(shorter than 20 characters), `_calculate_quality_score` returns −5: the
code clamps only from above, so the quality score is not always in
[0, 100]. -/
theorem quality_score_can_be_negative :
    calculate_quality_score "" "" "" 0 < 0 := by
  decide

/-- C3 amended: the relevance score is always ≤ 100 (and is a natural, so
≥ 0); the quality score is always ≤ 100 and at least
min (5 × tier − 5) 100, hence ≥ 0 whenever the source quality tier is at
least 1 (every configured source has tier ≥ 8); only tier 0 together with
a short title can push it below 0. -/
theorem score_bounds (title summary published : String) (q : Nat) :
    calculate_ai_relevance title summary ≤ 100 ∧
    calculate_quality_score title summary published q ≤ 100 ∧
    min ((q : Int) * 5 - 5) 100 ≤ calculate_quality_score title summary published q ∧
    (1 ≤ q → 0 ≤ calculate_quality_score title summary published q) := by
  refine ⟨?_, ?_, ?_, ?_⟩
  · simp only [calculate_ai_relevance]
    split
    · omega
    · exact Nat.min_le_right _ _
  · simp only [calculate_quality_score]
    exact min_le_right _ _
  · simp only [calculate_quality_score]
    apply min_le_min _ (le_refl (100 : Int))
    split_ifs <;> omega
  · intro hq
    have hlb : min ((q : Int) * 5 - 5) 100 ≤
        calculate_quality_score title summary published q := by
      simp only [calculate_quality_score]
      apply min_le_min _ (le_refl (100 : Int))
      split_ifs <;> omega
    have h0 : (0 : Int) ≤ min ((q : Int) * 5 - 5) 100 := by
      apply le_min _ (by omega)
      have : (1 : Int) ≤ (q : Int) := by exact_mod_cast hq
      omega
    exact le_trans h0 hlb

/-- C3 amended at concrete inputs (tier 1, empty article). -/
theorem score_bounds_witness :
    calculate_ai_relevance "" "" ≤ 100 ∧
    calculate_quality_score "" "" "" 1 ≤ 100 ∧
    min (((1 : Nat) : Int) * 5 - 5) 100 ≤ calculate_quality_score "" "" "" 1 ∧
    0 ≤ calculate_quality_score "" "" "" 1 :=
  ⟨(score_bounds "" "" "" 1).1, (score_bounds "" "" "" 1).2.1,
   (score_bounds "" "" "" 1).2.2.1, (score_bounds "" "" "" 1).2.2.2 (by decide)⟩

/-! ## C4 — at-most-once collection -/

/-- The ledger only grows during collection: everything seen (or logged)
before `collect_from_source` is still seen (logged) afterwards. -/
theorem rss_collect_go_mono (genId : String → String → String)
    (fetch : String → String) (src : RssSource) (now : String) :
    ∀ (entries : List RssEntry) (st : LedgerState),
      st.seen ⊆ (rss_collect_go genId fetch src now entries st).2.seen ∧
      st.log ⊆ (rss_collect_go genId fetch src now entries st).2.log := by
  intro entries
  induction entries with
  | nil => intro st; exact ⟨fun _ h => h, fun _ h => h⟩
  | cons e rest ih =>
    intro st
    simp only [rss_collect_go]
    split
    · exact ih st
    · split
      · exact ih st
      · constructor
        · intro x hx
          exact (ih _).1 (List.mem_cons_of_mem _ hx)
        · intro x hx
          exact (ih _).2 (List.mem_append_left _ hx)

/-- Every article kept by the `collect_from_source` loop was not yet seen
when the loop reached it, and its identity is in both the in-memory seen
set and the durable log by the time the loop returns. -/
theorem mem_rss_collect_go (genId : String → String → String)
    (fetch : String → String) (src : RssSource) (now : String) :
    ∀ (entries : List RssEntry) (st : LedgerState) (a : RssArticle),
      a ∈ (rss_collect_go genId fetch src now entries st).1 →
        a.id ∉ st.seen ∧
        a.id ∈ (rss_collect_go genId fetch src now entries st).2.seen ∧
        a.id ∈ (rss_collect_go genId fetch src now entries st).2.log := by
  intro entries
  induction entries with
  | nil => intro st a ha; simp [rss_collect_go] at ha
  | cons e rest ih =>
    intro st a ha
    simp only [rss_collect_go] at ha ⊢
    by_cases h1 : genId (e.link.getD "") (e.title.getD "") ∈ st.seen
    · simp only [if_pos h1] at ha ⊢
      exact ih st a ha
    · simp only [if_neg h1] at ha ⊢
      by_cases h2 : (rss_entry_content fetch e).length < 200
      · simp only [if_pos h2] at ha ⊢
        exact ih st a ha
      · simp only [if_neg h2] at ha ⊢
        rcases List.mem_cons.mp ha with rfl | hmem
        · refine ⟨h1, ?_, ?_⟩
          · exact (rss_collect_go_mono genId fetch src now rest _).1
              (List.mem_cons_self _ _)
          · exact (rss_collect_go_mono genId fetch src now rest _).2
              (List.mem_append_right _ (List.mem_singleton_self _))
        · have h := ih _ a hmem
          exact ⟨fun hx => h.1 (List.mem_cons_of_mem _ hx), h.2.1, h.2.2⟩

/-- C4: if identity `X` is already in the ledger, no article in the batch
`collect_from_source` returns has id `X`; and every article in the batch
has its identity both in the in-memory seen set and appended to the
durable log by the time the call returns — so a later run starting from
that ledger can never emit the same identity again. -/
theorem collect_at_most_once (genId : String → String → String)
    (fetch : String → String) (src : RssSource) (now : String)
    (st : LedgerState) (entries : List RssEntry) (X : String) (a : RssArticle)
    (hX : X ∈ st.seen)
    (ha : a ∈ (rss_collect_from_source genId fetch src now st entries).1) :
    a.id ≠ X ∧
    a.id ∈ (rss_collect_from_source genId fetch src now st entries).2.seen ∧
    a.id ∈ (rss_collect_from_source genId fetch src now st entries).2.log := by
  have h := mem_rss_collect_go genId fetch src now (entries.take 10) st a ha
  exact ⟨fun he => h.1 (he ▸ hX), h.2.1, h.2.2⟩

set_option maxRecDepth 4000 in
/-- C4 at concrete inputs: with the first entry's identity pre-seeded in
`testLedger`, the one collected article is the fresh entry, and its
identity is recorded in both ledger components. -/
theorem collect_at_most_once_witness :
    testRssArticle.id ≠ "https://e.com/x|Seen Title" ∧
    testRssArticle.id ∈ (rss_collect_from_source testGenId testFetch testRssSource
      "2026-01-01T00:00:00" testLedger testRssEntries).2.seen ∧
    testRssArticle.id ∈ (rss_collect_from_source testGenId testFetch testRssSource
      "2026-01-01T00:00:00" testLedger testRssEntries).2.log :=
  collect_at_most_once testGenId testFetch testRssSource "2026-01-01T00:00:00"
    testLedger testRssEntries "https://e.com/x|Seen Title" testRssArticle
    (by decide)
    (by
      have h : (rss_collect_from_source testGenId testFetch testRssSource
          "2026-01-01T00:00:00" testLedger testRssEntries).1 = [testRssArticle] := rfl
      rw [h]
      exact List.mem_singleton_self _)

/-! ## C5 — degraded-mode totality -/

/-- C5: with no credentials configured (`client_configured = false`),
`process_article` is total — it returns `some (mock_process a)` for every
input, whatever the parse functions and response outcome are — and the
mock result's title is non-empty (it is the original title behind the
"[Analysis] " tag) and its category is the input's category, with default
"AI" when the input has none. -/
theorem mock_process_total (jsonParse : String → Option LLMFields)
    (regexFields : String → LLMFields) (response : Except String String)
    (a : ArticleInput) :
    process_article false jsonParse regexFields response a = some (mock_process a) ∧
    (mock_process a).title ≠ "" ∧
    (mock_process a).category = a.category.getD "AI" := by
  refine ⟨rfl, ?_, rfl⟩
  intro h
  have hlen := congrArg String.length h
  simp only [mock_process, String.length_append] at hlen
  have h11 : "[Analysis] ".length = 11 := rfl
  have h0 : "".length = 0 := rfl
  omega

/-! ## C6 — provenance never comes from generated text -/

/-- C6: with a client configured and the backend call returning normally,
the `category`, `source_url` and `source_name` of the processed article
are copied from the input article — for every response text, and for every
behaviour of the JSON parse and of the regex fallback — so two runs with
different backend responses always agree on all three provenance
fields. -/
theorem provenance_independent_of_response (jsonParse : String → Option LLMFields)
    (regexFields : String → LLMFields) (a : ArticleInput) (r1 r2 : String) :
    ((process_article_with_client jsonParse regexFields a (Except.ok r1)).map
        (fun p => (p.category, p.source_url, p.source_name)) =
      some (a.category.getD "AI", a.url.getD "", a.source.getD "")) ∧
    ((process_article_with_client jsonParse regexFields a (Except.ok r1)).map
        (fun p => (p.category, p.source_url, p.source_name)) =
      (process_article_with_client jsonParse regexFields a (Except.ok r2)).map
        (fun p => (p.category, p.source_url, p.source_name))) :=
  ⟨rfl, rfl⟩

/-! ## C9 — localisation failure is local -/

/-- C9: `Translator.translate` catches a raising backend call and returns
the original text for that one call, so `translate_article` never raises;
in particular when the backend raises for Japanese but succeeds for
Chinese, the bundle's `ja` content falls back to the original text while
`zh` keeps its translation — and likewise per field. -/
theorem translate_failure_is_local (tr : String → String → Except String String)
    (title summary content : String) (e v : String)
    (hja : tr content "JA" = Except.error e)
    (hzh : tr content "ZH" = Except.ok v) :
    translate (some tr) content "JA" = content ∧
    (translate_article (some tr) title summary content).ja.content = content ∧
    (translate_article (some tr) title summary content).zh.content = v := by
  refine ⟨?_, ?_, ?_⟩ <;> simp [translate, translate_article, hja, hzh]

/-- C9 at concrete inputs: `testBackend` raises for "JA" and succeeds for
"ZH". -/
theorem translate_failure_is_local_witness :
    translate (some testBackend) "C" "JA" = "C" ∧
    (translate_article (some testBackend) "T" "S" "C").ja.content = "C" ∧
    (translate_article (some testBackend) "T" "S" "C").zh.content = "[zh] C" :=
  translate_failure_is_local testBackend "T" "S" "C" "timeout" "[zh] C" rfl rfl

/-! ## C10 — pipeline counter invariants -/

/-- C10 counterexample: `run` guards truncation with `if max_articles:`,
so a cap of 0 is falsy and does not truncate — with one collected and
processable article and a cap of 0, `processed` is 1, not ≤ min(collected,
cap) = 0.  The claim as stated is false for the cap 0. -/
theorem pipeline_zero_cap_not_truncated :
    ¬((pipeline_run c10Collect c10Process c10Translate c10Publish (some 0)).processed ≤
      min (pipeline_run c10Collect c10Process c10Translate c10Publish (some 0)).collected 0) := by
  decide

/-- C10 amended: every completed run has translated = published = number
of result articles; processed ≤ collected always, and processed ≤ the cap
whenever a non-zero cap is given (a cap of 0 is falsy in Python and
disables truncation); an empty collector batch returns immediately with
all four counters 0 and no articles. -/
theorem pipeline_counter_invariants {α π τ ρ : Type} (collect_all : List α)
    (process : α → Option π) (translate_stage : π → τ)
    (publish_stage : π → τ → ρ) (max_articles : Option Nat) :
    (pipeline_run collect_all process translate_stage publish_stage max_articles).translated =
      (pipeline_run collect_all process translate_stage publish_stage max_articles).published ∧
    (pipeline_run collect_all process translate_stage publish_stage max_articles).published =
      (pipeline_run collect_all process translate_stage publish_stage max_articles).articles.length ∧
    (pipeline_run collect_all process translate_stage publish_stage max_articles).processed ≤
      (pipeline_run collect_all process translate_stage publish_stage max_articles).collected ∧
    (∀ k, max_articles = some k → k ≠ 0 →
      (pipeline_run collect_all process translate_stage publish_stage max_articles).processed ≤ k) ∧
    (collect_all = [] →
      pipeline_run collect_all process translate_stage publish_stage max_articles =
        ⟨0, 0, 0, 0, []⟩) := by
  by_cases hemp : collect_all.isEmpty
  · have h0 : pipeline_run collect_all process translate_stage publish_stage max_articles
        = ⟨0, 0, 0, 0, []⟩ := by
      simp [pipeline_run, hemp]
    rw [h0]
    dsimp only
    exact ⟨rfl, rfl, Nat.le_refl 0, fun _ _ _ => Nat.zero_le _, fun _ => rfl⟩
  · have hne : collect_all ≠ [] := fun h => hemp (by simp [h])
    rcases max_articles with _ | k
    · have hrun : pipeline_run collect_all process translate_stage publish_stage none
          = ⟨collect_all.length, (collect_all.filterMap process).length,
             ((collect_all.filterMap process).map
               (fun p => publish_stage p (translate_stage p))).length,
             ((collect_all.filterMap process).map
               (fun p => publish_stage p (translate_stage p))).length,
             (collect_all.filterMap process).map
               (fun p => publish_stage p (translate_stage p))⟩ := by
        simp [pipeline_run, hemp]
      rw [hrun]
      dsimp only
      refine ⟨rfl, rfl, ?_, ?_, fun h => absurd h hne⟩
      · exact List.length_filterMap_le process collect_all
      · exact fun k hk _ => nomatch hk
    · by_cases hk0 : k = 0
      · subst hk0
        have hrun : pipeline_run collect_all process translate_stage publish_stage (some 0)
            = ⟨collect_all.length, (collect_all.filterMap process).length,
               ((collect_all.filterMap process).map
                 (fun p => publish_stage p (translate_stage p))).length,
               ((collect_all.filterMap process).map
                 (fun p => publish_stage p (translate_stage p))).length,
               (collect_all.filterMap process).map
                 (fun p => publish_stage p (translate_stage p))⟩ := by
          simp [pipeline_run, hemp]
        rw [hrun]
        dsimp only
        refine ⟨rfl, rfl, ?_, ?_, fun h => absurd h hne⟩
        · exact List.length_filterMap_le process collect_all
        · intro k hk hkne
          injection hk with h
          exact absurd h.symm hkne
      · have hrun : pipeline_run collect_all process translate_stage publish_stage (some k)
            = ⟨collect_all.length, ((collect_all.take k).filterMap process).length,
               (((collect_all.take k).filterMap process).map
                 (fun p => publish_stage p (translate_stage p))).length,
               (((collect_all.take k).filterMap process).map
                 (fun p => publish_stage p (translate_stage p))).length,
               ((collect_all.take k).filterMap process).map
                 (fun p => publish_stage p (translate_stage p))⟩ := by
          simp [pipeline_run, hemp, hk0]
        rw [hrun]
        dsimp only
        have h1 := List.length_filterMap_le process (collect_all.take k)
        have h2 : (collect_all.take k).length = min k collect_all.length :=
          List.length_take k collect_all
        refine ⟨rfl, rfl, by omega, ?_, fun h => absurd h hne⟩
        intro k2 hk2 _
        injection hk2 with h
        subst h
        omega

/-- C10 amended at concrete inputs (one article, cap 2). -/
theorem pipeline_counter_invariants_witness :
    (pipeline_run c10Collect c10Process c10Translate c10Publish (some 2)).translated =
      (pipeline_run c10Collect c10Process c10Translate c10Publish (some 2)).published ∧
    (pipeline_run c10Collect c10Process c10Translate c10Publish (some 2)).processed ≤ 2 :=
  ⟨(pipeline_counter_invariants c10Collect c10Process c10Translate c10Publish (some 2)).1,
   (pipeline_counter_invariants c10Collect c10Process c10Translate c10Publish
      (some 2)).2.2.2.1 2 rfl (by decide)⟩

/-! ## C8 — per-locale writes are sequential, not independent -/

/-- Behaviour of the translation-writing loop: the files it writes are an
initial segment of the per-locale path list; it completes iff no write in
that list raises; and on completion every per-locale file was written. -/
theorem publish_go_spec (fails : String → Bool) (date_str slug : String)
    (keywords : List String) (source_url source_name : String)
    (audio_paths : Option (List (String × String))) :
    ∀ ts : List (String × LangTrans),
      ((publish_translations_go fails date_str slug keywords source_url source_name
          audio_paths ts).1.map Prod.fst <+: ts.map (trans_path date_str slug)) ∧
      ((publish_translations_go fails date_str slug keywords source_url source_name
          audio_paths ts).2.isSome = true ↔
        ∀ p ∈ ts.map (trans_path date_str slug), fails p = false) ∧
      ((publish_translations_go fails date_str slug keywords source_url source_name
          audio_paths ts).2.isSome = true →
        (publish_translations_go fails date_str slug keywords source_url source_name
          audio_paths ts).1.map Prod.fst = ts.map (trans_path date_str slug)) := by
  intro ts
  induction ts with
  | nil => simp [publish_translations_go]
  | cons hd rest ih =>
    obtain ⟨lang, lt⟩ := hd
    simp only [publish_translations_go, List.map_cons]
    by_cases hf : fails (trans_path date_str slug (lang, lt)) = true
    · simp only [if_pos hf]
      refine ⟨List.nil_prefix, ?_, by simp⟩
      simp only [Option.isSome_none, Bool.false_eq_true, false_iff]
      intro hall
      have hcontra := hall (trans_path date_str slug (lang, lt)) (List.mem_cons_self _ _)
      rw [hf] at hcontra
      exact absurd hcontra (by simp)
    · simp only [if_neg hf]
      have hf' : fails (trans_path date_str slug (lang, lt)) = false := by
        simpa using hf
      rcases hgo : publish_translations_go fails date_str slug keywords source_url
          source_name audio_paths rest with ⟨written, res⟩
      rw [hgo] at ih
      rcases res with _ | pubs
      · simp only
        refine ⟨?_, ?_, ?_⟩
        · obtain ⟨t, ht⟩ := ih.1
          exact ⟨t, by simp only [List.map_cons, List.cons_append, ht]⟩
        · simp only [Option.isSome_none, Bool.false_eq_true, false_iff]
          intro hall
          have hrest : ∀ p ∈ rest.map (trans_path date_str slug), fails p = false :=
            fun p hp => hall p (List.mem_cons_of_mem _ hp)
          have := ih.2.1.mpr hrest
          simp at this
        · intro h
          simp at h
      · simp only
        refine ⟨?_, ?_, ?_⟩
        · obtain ⟨t, ht⟩ := ih.1
          exact ⟨t, by simp only [List.map_cons, List.cons_append, ht]⟩
        · simp only [Option.isSome_some, true_iff]
          intro p hp
          rcases List.mem_cons.mp hp with rfl | hp'
          · exact hf'
          · exact ih.2.1.mp (by simp) p hp'
        · intro _
          simp only [List.map_cons]
          rw [ih.2.2 (by simp)]

/-- C8 counterexample: with a write model in which exactly the
source-language file write raises, `publish_article` with one pending
"zh" translation writes nothing at all — the zh locale file is not
written, so a failure on one locale's write does prevent the others. -/
theorem publish_en_failure_blocks_translations :
    (publish_article c8FailEn "2026-01-01" "Test Title" "summary" "body" ["AI"]
      "https://example.com" "Example" (some c8Translations) none).1 = [] ∧
    (publish_article c8FailEn "2026-01-01" "Test Title" "summary" "body" ["AI"]
      "https://example.com" "Example" (some c8Translations) none).2 = none := by
  exact ⟨rfl, rfl⟩

/-- C8 amended: the writes of `publish_article` are sequential in a fixed
order — the source-language file first, then one file per locale in map
order — and a raising write aborts the method: the files actually written
are always an initial segment of that order, the method returns normally
iff every write succeeds, and then every locale's file was written. -/
theorem publish_sequential_writes (fails : String → Bool) (date_str : String)
    (title summary content : String) (keywords : List String)
    (source_url source_name : String) (ts : List (String × LangTrans))
    (audio_paths : Option (List (String × String))) :
    ((publish_article fails date_str title summary content keywords source_url
        source_name (some ts) audio_paths).1.map Prod.fst <+:
      intended_paths date_str (generate_slug title) ts) ∧
    ((publish_article fails date_str title summary content keywords source_url
        source_name (some ts) audio_paths).2.isSome = true ↔
      ∀ p ∈ intended_paths date_str (generate_slug title) ts, fails p = false) ∧
    ((publish_article fails date_str title summary content keywords source_url
        source_name (some ts) audio_paths).2.isSome = true →
      (publish_article fails date_str title summary content keywords source_url
        source_name (some ts) audio_paths).1.map Prod.fst =
        intended_paths date_str (generate_slug title) ts) := by
  simp only [publish_article, intended_paths]
  by_cases hEn : fails (en_path date_str (generate_slug title)) = true
  · simp only [if_pos hEn]
    refine ⟨List.nil_prefix, ?_, by simp⟩
    simp only [Option.isSome_none, Bool.false_eq_true, false_iff]
    intro hall
    have hcontra := hall (en_path date_str (generate_slug title)) (List.mem_cons_self _ _)
    rw [hEn] at hcontra
    exact absurd hcontra (by simp)
  · simp only [if_neg hEn]
    have hEn' : fails (en_path date_str (generate_slug title)) = false := by
      simpa using hEn
    have hspec := publish_go_spec fails date_str (generate_slug title) keywords
      source_url source_name audio_paths ts
    rcases hgo : publish_translations_go fails date_str (generate_slug title) keywords
        source_url source_name audio_paths ts with ⟨written, res⟩
    rw [hgo] at hspec
    rcases res with _ | pubs
    · simp only
      refine ⟨?_, ?_, ?_⟩
      · obtain ⟨t, ht⟩ := hspec.1
        exact ⟨t, by simp only [List.map_cons, List.cons_append, ht]⟩
      · simp only [Option.isSome_none, Bool.false_eq_true, false_iff]
        intro hall
        have hrest : ∀ p ∈ ts.map (trans_path date_str (generate_slug title)),
            fails p = false := fun p hp => hall p (List.mem_cons_of_mem _ hp)
        have := hspec.2.1.mpr hrest
        simp at this
      · intro h
        simp at h
    · simp only
      refine ⟨?_, ?_, ?_⟩
      · obtain ⟨t, ht⟩ := hspec.1
        exact ⟨t, by simp only [List.map_cons, List.cons_append, ht]⟩
      · simp only [Option.isSome_some, true_iff]
        intro p hp
        rcases List.mem_cons.mp hp with rfl | hp'
        · exact hEn'
        · exact hspec.2.1.mp (by simp) p hp'
      · intro _
        simp only [List.map_cons]
        rw [hspec.2.2 (by simp)]

/-- C8 amended at concrete inputs: with no failing write, both files (the
source-language one and the zh one) are written, in order. -/
theorem publish_sequential_writes_witness :
    (publish_article c8NoFail "2026-01-01" "Test Title" "summary" "body" ["AI"]
      "https://example.com" "Example" (some c8Translations) none).1.map Prod.fst =
      intended_paths "2026-01-01" (generate_slug "Test Title") c8Translations := by
  have h := publish_sequential_writes c8NoFail "2026-01-01" "Test Title" "summary"
    "body" ["AI"] "https://example.com" "Example" c8Translations none
  exact h.2.2 (h.2.1.mpr (by decide))

/-! ## C7 — slug charset and bounds -/

/-- `Char.ofNat` round-trips on valid code points. -/
theorem char_ofNat_toNat (n : Nat) (h : n.isValidChar) : (Char.ofNat n).toNat = n := by
  simp [Char.ofNat, Char.ofNatAux, Char.toNat, h]
  rfl

/-- `Char.toLower` maps only upper-case ASCII letters (to lower-case
letters), so the only character that lower-cases to a hyphen is the
hyphen. -/
theorem toLower_eq_hyphen {c : Char} (h : c.toLower = '-') : c = '-' := by
  have h' : (if c.toNat ≥ 65 ∧ c.toNat ≤ 90 then Char.ofNat (c.toNat + 32) else c)
      = '-' := h
  by_cases hc : c.toNat ≥ 65 ∧ c.toNat ≤ 90
  · rw [if_pos hc] at h'
    exfalso
    have hvalid : (c.toNat + 32).isValidChar := by
      unfold Nat.isValidChar
      exact Or.inl (by omega)
    have hval := congrArg Char.toNat h'
    rw [char_ofNat_toNat _ hvalid] at hval
    have h45 : ('-').toNat = 45 := rfl
    omega
  · rwa [if_neg hc] at h'

/-- Every character the whitespace-collapsing pass emits is either the
hyphen it substitutes for a run, or a non-whitespace input character. -/
theorem mem_collapse_ws_go :
    ∀ (b : Bool) (l : List Char) (c : Char), c ∈ collapse_ws_go b l →
      c = '-' ∨ (c ∈ l ∧ c.isWhitespace = false) := by
  intro b l
  induction l generalizing b with
  | nil => intro c hc; simp [collapse_ws_go] at hc
  | cons x rest ih =>
    intro c hc
    simp only [collapse_ws_go] at hc
    by_cases hw : x.isWhitespace = true
    · rw [if_pos hw] at hc
      by_cases hb : b = true
      · rw [if_pos hb] at hc
        rcases ih true c hc with h | ⟨h1, h2⟩
        · exact Or.inl h
        · exact Or.inr ⟨List.mem_cons_of_mem _ h1, h2⟩
      · rw [if_neg hb] at hc
        rcases List.mem_cons.mp hc with rfl | hc'
        · exact Or.inl rfl
        · rcases ih true c hc' with h | ⟨h1, h2⟩
          · exact Or.inl h
          · exact Or.inr ⟨List.mem_cons_of_mem _ h1, h2⟩
    · have hw' : x.isWhitespace = false := by simpa using hw
      rw [if_neg (by simp [hw'])] at hc
      rcases List.mem_cons.mp hc with rfl | hc'
      · exact Or.inr ⟨List.mem_cons_self _ _, hw'⟩
      · rcases ih false c hc' with h | ⟨h1, h2⟩
        · exact Or.inl h
        · exact Or.inr ⟨List.mem_cons_of_mem _ h1, h2⟩

/-- When the flag says a whitespace run is already open, the next emitted
character is a non-whitespace input character. -/
theorem head_collapse_ws_go_true :
    ∀ (l : List Char) (x : Char), (collapse_ws_go true l).head? = some x →
      x ∈ l ∧ x.isWhitespace = false := by
  intro l
  induction l with
  | nil => intro x hx; simp [collapse_ws_go] at hx
  | cons c rest ih =>
    intro x hx
    simp only [collapse_ws_go] at hx
    by_cases hw : c.isWhitespace = true
    · rw [if_pos hw] at hx
      simp only [if_true] at hx
      obtain ⟨h1, h2⟩ := ih x hx
      exact ⟨List.mem_cons_of_mem _ h1, h2⟩
    · have hw' : c.isWhitespace = false := by simpa using hw
      rw [if_neg (by simp [hw'])] at hx
      simp only [List.head?_cons, Option.some.injEq] at hx
      subst hx
      exact ⟨List.mem_cons_self _ _, hw'⟩

/-- On a hyphen-free input the whitespace-collapsing pass never emits two
adjacent hyphens: each emitted hyphen closes a whitespace run and is
followed (if at all) by a non-whitespace, hence non-hyphen, input
character. -/
theorem chain_collapse_ws_go :
    ∀ (l : List Char), '-' ∉ l → ∀ b, (collapse_ws_go b l).Chain' noAdjHyphens := by
  intro l
  induction l with
  | nil => intro _ b; simp [collapse_ws_go]
  | cons c rest ih =>
    intro hl b
    have hc : c ≠ '-' := fun h => hl (h ▸ List.mem_cons_self _ _)
    have hrest : '-' ∉ rest := fun h => hl (List.mem_cons_of_mem _ h)
    simp only [collapse_ws_go]
    by_cases hw : c.isWhitespace = true
    · rw [if_pos hw]
      by_cases hb : b = true
      · rw [if_pos hb]
        exact ih hrest true
      · rw [if_neg hb]
        rw [List.chain'_cons']
        refine ⟨?_, ih hrest true⟩
        intro y hy
        have hhead := head_collapse_ws_go_true rest y (Option.mem_def.mp hy)
        have hyne : y ≠ '-' := fun h => hrest (h ▸ hhead.1)
        exact fun hcon => hyne hcon.2
    · have hw' : c.isWhitespace = false := by simpa using hw
      rw [if_neg (by simp [hw'])]
      rw [List.chain'_cons']
      refine ⟨?_, ih hrest false⟩
      intro y _
      exact fun hcon => hc hcon.1

/-- The head surviving `dropWhile p` does not satisfy `p`. -/
theorem head?_dropWhile_not (p : Char → Bool) :
    ∀ (l : List Char) (x : Char), (l.dropWhile p).head? = some x → p x = false := by
  intro l
  induction l with
  | nil => intro x hx; simp at hx
  | cons c rest ih =>
    intro x hx
    by_cases hp : p c = true
    · rw [List.dropWhile_cons, if_pos hp] at hx
      exact ih x hx
    · rw [List.dropWhile_cons, if_neg hp] at hx
      simp only [List.head?_cons, Option.some.injEq] at hx
      subst hx
      simpa using hp

/-- Taking a prefix cannot change a list's head. -/
theorem head?_take_some {l : List Char} {n : Nat} {x : Char}
    (h : (l.take n).head? = some x) : l.head? = some x := by
  cases n with
  | zero => simp at h
  | succ m =>
    cases l with
    | nil => simp at h
    | cons a t => simpa using h

/-- The stripped slug body is a prefix of the left-stripped list. -/
theorem slug_core_pre (title : String) :
    slug_core title <+:
      (collapse_ws_go false ((strLower title).data.filter isSlugKeepChar)).dropWhile
        (fun c => c == '-') := by
  have h : (slug_core title).reverse <:+
      ((collapse_ws_go false ((strLower title).data.filter isSlugKeepChar)).dropWhile
        (fun c => c == '-')).reverse := by
    show ((((collapse_ws_go false ((strLower title).data.filter isSlugKeepChar)).dropWhile
        (fun c => c == '-')).reverse.dropWhile (fun c => c == '-')).reverse).reverse <:+ _
    rw [List.reverse_reverse]
    exact List.dropWhile_suffix _
  rwa [List.reverse_suffix] at h

/-- The stripped slug body sits inside the collapsed character list. -/
theorem slug_core_within (title : String) :
    slug_core title <:+:
      collapse_ws_go false ((strLower title).data.filter isSlugKeepChar) :=
  (slug_core_pre title).isInfix.trans (List.dropWhile_suffix _).isInfix

/-- C7 counterexample: on a title of 49 `a`s, a space and a `b`, the
normalised slug is 51 characters long and the final `[:50]` cap cuts right
after the hyphen the space became — the returned slug ends in a hyphen,
so the claim's "no trailing hyphen" is false as stated. -/
theorem slug_truncation_trailing_hyphen :
    (generate_slug slugTrailingTitle).data.getLast? = some '-' := by
  decide

/-- C7 amended: `_generate_slug` is a pure function of the title; its
result contains only `[a-z0-9-]`, never starts with a hyphen, and is at
most 50 characters; whitespace runs become single hyphens (on a
hyphen-free title no two adjacent hyphens ever appear); and the result
does not end in a hyphen either, provided the normalised slug was at most
50 characters long — the `[:50]` cap runs after `strip('-')` and can cut
directly behind a hyphen, which is the one exception. -/
theorem slug_charset_bounds (title : String) :
    (∀ c ∈ (generate_slug title).data, isSlugOutChar c = true) ∧
    (generate_slug title).data.head? ≠ some '-' ∧
    (generate_slug title).length ≤ 50 ∧
    ((slug_core title).length ≤ 50 →
      (generate_slug title).data.getLast? ≠ some '-') ∧
    ('-' ∉ title.data → ((generate_slug title).data).Chain' noAdjHyphens) := by
  have hdata : (generate_slug title).data = (slug_core title).take 50 := rfl
  refine ⟨?_, ?_, ?_, ?_, ?_⟩
  · intro c hc
    rw [hdata] at hc
    have hc1 : c ∈ slug_core title := List.take_subset _ _ hc
    have hc2 : c ∈ collapse_ws_go false ((strLower title).data.filter isSlugKeepChar) :=
      (slug_core_within title).subset hc1
    rcases mem_collapse_ws_go false _ c hc2 with rfl | ⟨hmem, hnw⟩
    · rfl
    · have hkeep := (List.mem_filter.mp hmem).2
      simp only [isSlugKeepChar, Bool.or_eq_true, Bool.and_eq_true,
        decide_eq_true_eq, beq_iff_eq, hnw] at hkeep
      simp only [isSlugOutChar, Bool.or_eq_true, Bool.and_eq_true,
        decide_eq_true_eq, beq_iff_eq]
      tauto
  · rw [hdata]
    intro hsome
    have h1 := head?_take_some hsome
    obtain ⟨t, ht⟩ := slug_core_pre title
    cases hD : slug_core title with
    | nil => rw [hD] at h1; simp at h1
    | cons a t2 =>
      rw [hD] at h1 ht
      simp only [List.head?_cons, Option.some.injEq] at h1
      subst h1
      have hL : ((collapse_ws_go false ((strLower title).data.filter isSlugKeepChar)).dropWhile
          (fun c => c == '-')).head? = some '-' := by
        rw [← ht]
        rfl
      have := head?_dropWhile_not _ _ '-' hL
      simp at this
  · show ((slug_core title).take 50).length ≤ 50
    rw [List.length_take]
    exact Nat.min_le_left _ _
  · intro h50 hsome
    rw [hdata, List.take_of_length_le h50] at hsome
    have hrev : slug_core title =
        (((collapse_ws_go false ((strLower title).data.filter isSlugKeepChar)).dropWhile
          (fun c => c == '-')).reverse.dropWhile (fun c => c == '-')).reverse := rfl
    rw [hrev, List.getLast?_reverse] at hsome
    have := head?_dropWhile_not _ _ '-' hsome
    simp at this
  · intro hnh
    rw [hdata]
    have hfnh : '-' ∉ (strLower title).data.filter isSlugKeepChar := by
      intro hmem
      have hmap : ('-') ∈ title.data.map Char.toLower := (List.mem_filter.mp hmem).1
      obtain ⟨c, hcmem, hlow⟩ := List.mem_map.mp hmap
      exact hnh (toLower_eq_hyphen hlow ▸ hcmem)
    have hchain := chain_collapse_ws_go _ hfnh false
    have htake : (slug_core title).take 50 <+: slug_core title :=
      ⟨(slug_core title).drop 50, List.take_append_drop 50 _⟩
    exact List.Chain'.infix hchain (htake.isInfix.trans (slug_core_within title))

/-- C7 amended at the spec's own example title (which contains no hyphen,
and whose normalised slug is 19 characters). -/
theorem slug_charset_bounds_witness :
    (generate_slug "Claude 3.5: A New Era!").length ≤ 50 ∧
    (generate_slug "Claude 3.5: A New Era!").data.head? ≠ some '-' ∧
    (generate_slug "Claude 3.5: A New Era!").data.getLast? ≠ some '-' ∧
    ((generate_slug "Claude 3.5: A New Era!").data).Chain' noAdjHyphens :=
  ⟨(slug_charset_bounds "Claude 3.5: A New Era!").2.2.1,
   (slug_charset_bounds "Claude 3.5: A New Era!").2.1,
   (slug_charset_bounds "Claude 3.5: A New Era!").2.2.2.1 (by decide),
   (slug_charset_bounds "Claude 3.5: A New Era!").2.2.2.2 (by decide)⟩

end AiTechBlog
